import Mathlib

/-!
Verification of the natural-language specification of the pytorch3d fork
(surface sampling and ragged-batch layout utilities) against a shallow
embedding of the source code.

Conventions of the embedding:
* torch tensors over floats are modelled as (nested) lists over `ℚ`;
  exact rational arithmetic stands in for IEEE floating point.
* `torch.Tensor.sqrt` / `.norm` / `.std` are modelled by `qsqrt`, an
  executable rational square root that is exact whenever the reduced
  numerator and denominator are perfect squares; concrete inputs used in
  theorems below are chosen so that the square roots that matter are exact.
* fallible code (Python `raise`) is modelled with `Except String`.
* random draws (`torch.rand`, `Tensor.multinomial`) are modelled as
  oracle inputs threaded explicitly through the functions; a random seed
  corresponds to a choice of oracle.
-/

namespace P3D

/-- Executable rational square root, exact on rationals whose reduced
numerator and denominator are perfect squares (models floating point
`sqrt` on the exact inputs used below). -/
def qsqrt (q : ℚ) : ℚ := (Nat.sqrt q.num.toNat : ℚ) / (Nat.sqrt q.den : ℚ)

theorem qsqrt_natCast (n : Nat) : qsqrt (n : ℚ) = (Nat.sqrt n : ℚ) := by
  simp [qsqrt]

theorem qsqrt_zero : qsqrt 0 = 0 := by
  have h : qsqrt ((0 : Nat) : ℚ) = ((Nat.sqrt 0 : Nat) : ℚ) := qsqrt_natCast 0
  simpa using h

theorem qsqrt_of_sq (n : Nat) : qsqrt ((n * n : Nat) : ℚ) = (n : ℚ) := by
  rw [qsqrt_natCast, Nat.sqrt_eq]

theorem qsqrt_pos (q : ℚ) (h : 0 < q) : 0 < qsqrt q := by
  rw [qsqrt]
  apply div_pos
  · have h1 : 0 < q.num := Rat.num_pos.mpr h
    have h2 : 0 < q.num.toNat := by omega
    exact_mod_cast Nat.sqrt_pos.mpr h2
  · exact_mod_cast Nat.sqrt_pos.mpr q.den_pos

/-- `tabulate n f = [f 0, f 1, ..., f (n-1)]`; the lazy-friendly
rendering of building a tensor axis of extent `n` by an index function
(used to model vectorized torch operations pointwise). -/
def tabulate {α : Type} : Nat → (Nat → α) → List α
  | 0, _ => []
  | n + 1, f => f 0 :: tabulate n (fun i => f (i + 1))

theorem length_tabulate {α : Type} (n : Nat) (f : Nat → α) :
    (tabulate n f).length = n := by
  induction n generalizing f with
  | zero => rfl
  | succ n ih => simp [tabulate, ih]

theorem get?_tabulate {α : Type} (n : Nat) (f : Nat → α) (k : Nat) :
    (tabulate n f).get? k = if k < n then some (f k) else none := by
  induction n generalizing f k with
  | zero => simp [tabulate]
  | succ n ih =>
    cases k with
    | zero => simp [tabulate]
    | succ k =>
      have h := ih (fun i => f (i + 1)) k
      simpa [tabulate, Nat.succ_lt_succ_iff] using h

theorem tabulate_six {α : Type} (f : Nat → α) :
    tabulate 6 f = [f 0, f 1, f 2, f 3, f 4, f 5] := rfl

theorem range_six : List.range 6 = [0, 1, 2, 3, 4, 5] := rfl

theorem take_three {α : Type} (a b c : α) (l : List α) :
    List.take 3 (a :: b :: c :: l) = [a, b, c] := rfl

theorem mem_tabulate {α : Type} {n : Nat} {f : Nat → α} {a : α}
    (h : a ∈ tabulate n f) : ∃ i, i < n ∧ f i = a := by
  induction n generalizing f with
  | zero => simp [tabulate] at h
  | succ n ih =>
    simp only [tabulate, List.mem_cons] at h
    rcases h with h | h
    · exact ⟨0, Nat.succ_pos n, h.symm⟩
    · obtain ⟨i, hi, hf⟩ := ih h
      exact ⟨i + 1, Nat.succ_lt_succ hi, hf⟩

/-! ## RaggedBatchCodec: `src/pytorch3d/structures/utils.py`

Items of the ragged batches are modelled at the ranks the claims use:
a rank-3 `(N, M, D)` tensor is `List (List (List ℚ))` and so on.
-/

/-- `list_to_packed` (utils.py lines 199-235).  Returns
`(x_packed, num_items, item_packed_first_idx, item_packed_to_list_idx)`.
The access `x[0].device` on an empty input list raises `IndexError`,
modelled by the error branch. -/
def list_to_packed (x : List (List (List ℚ))) :
    Except String (List (List ℚ) × List Nat × List Nat × List Nat) :=
  if x.isEmpty then .error "list index out of range"
  else
    .ok (x.flatten,
         x.map List.length,
         tabulate x.length (fun i => ((x.take i).map List.length).sum),
         (tabulate x.length (fun i => List.replicate ((x.getD i []).length) i)).flatten)

/-- `Tensor.split` with a list of sizes (used by `packed_to_list`):
successively take the declared number of leading entries. -/
def splitBySizes {α : Type} : List α → List Nat → List (List α)
  | _, [] => []
  | xs, n :: ns => xs.take n :: splitBySizes (xs.drop n) ns

/-- `packed_to_list` (utils.py lines 238-251): `list(x.split(split_size, dim=0))`.
`torch.split` raises unless the sizes sum to the length of the split axis. -/
def packed_to_list (x : List (List ℚ)) (split_size : List Nat) :
    Except String (List (List (List ℚ))) :=
  if split_size.sum ≠ x.length then
    .error "split_with_sizes expects split_sizes to sum exactly to the dim size"
  else .ok (splitBySizes x split_size)

/-- `list_to_padded` (utils.py lines 85-159) for rank-2 items, with the
defaults the claims instantiate: `pad_size=None`, `equisized=False`.
The `pad_size` recursion branch (lines 136-151) and the equisized fast
path are therefore not modelled; the rank-uniformity checks are enforced
by the type.  Branches in source order:
* `ydim = x[0].ndim` raises `IndexError` on an empty list;
* `pad_dims = [max(y.shape[dim] for y in x if len(y) > 0) ...]` raises
  `ValueError` when every item has zero leading extent (empty generator);
* otherwise each item is written into the `pad_value`-filled rectangle. -/
def list_to_padded (x : List (List (List ℚ))) (pad_value : ℚ) :
    Except String (List (List (List ℚ))) :=
  if x.isEmpty then .error "list index out of range"
  else if x.all (fun y => y.length = 0) then .error "max() arg is an empty sequence"
  else
    let nonempty := x.filter (fun y => 0 < y.length)
    let pad0 := (nonempty.map List.length).foldr max 0
    let pad1 := (nonempty.map (fun y => (y.headD []).length)).foldr max 0
    .ok (x.map (fun y =>
      if 0 < y.length then
        (y.map (fun r => r ++ List.replicate (pad1 - r.length) pad_value))
          ++ List.replicate (pad0 - y.length) (List.replicate pad1 pad_value)
      else List.replicate pad0 (List.replicate pad1 pad_value)))

/-- `padded_to_list` (utils.py lines 162-196) for a rank-3 padded tensor
with per-item per-axis split sizes (the tuple branch of lines 193-195;
the scalar branch is not exercised by the claims).  `split_size = none`
returns the rows unchanged (`list(x.unbind(0))`). -/
def padded_to_list (x : List (List (List ℚ)))
    (split_size : Option (List (Nat × Nat))) :
    Except String (List (List (List ℚ))) :=
  match split_size with
  | none => .ok x
  | some sp =>
    if x.length ≠ sp.length then
      .error "Split size must be of same length as inputs first dimension"
    else .ok (List.zipWith (fun y (s : Nat × Nat) => (y.take s.1).map (List.take s.2)) x sp)

/-- The index tensor `padded_to_packed_idx` of utils.py lines 314-322:
concatenation over items `i` of `arange(split_size[i]) + i * M`. -/
def gatherIdx (M : Nat) : Nat → List Nat → List Nat
  | _, [] => []
  | i, s :: sp => (List.range s).map (fun m => i * M + m) ++ gatherIdx M (i + 1) sp

/-- `padded_to_packed` (utils.py lines 254-324).  The input is rank 3 by
type (the `x.ndim != 3` check cannot fire); `M` is the middle extent read
off the shape.  With `pad_value`: keep the flattened rows where some
channel differs from the value.  With `split_size`: gather the packed
rows at `padded_to_packed_idx` (out-of-range gather indices are modelled
with `getD`, defaulting to an empty row). -/
def padded_to_packed (x : List (List (List ℚ)))
    (split_size : Option (List Nat)) (pad_value : Option ℚ) :
    Except String (List (List ℚ)) :=
  let M := (x.headD []).length
  if split_size.isSome ∧ pad_value.isSome then
    .error "Only one of split_size or pad_value should be provided."
  else
    let x_packed := x.flatten
    match pad_value, split_size with
    | none, none => .ok x_packed
    | some v, _ => .ok (x_packed.filter (fun r => r.any (fun c => c ≠ v)))
    | none, some sp =>
      if x.length ≠ sp.length then
        .error "Split size must be of same length as inputs first dimension"
      else .ok ((gatherIdx M 0 sp).map (fun k => x_packed.getD k []))

/-! ### Lemmas about the codec -/

theorem splitBySizes_flatten {α : Type} (x : List (List α)) :
    splitBySizes x.flatten (x.map List.length) = x := by
  induction x with
  | nil => rfl
  | cons y ys ih =>
    simp only [List.flatten_cons, List.map_cons, splitBySizes,
      List.take_left, List.drop_left]
    rw [ih]

theorem zipWith_map_same {α β γ δ : Type} (f : β → γ → δ) (g : α → β) (h : α → γ) :
    ∀ x : List α, List.zipWith f (x.map g) (x.map h) = x.map (fun a => f (g a) (h a))
  | [] => rfl
  | a :: x => by simp [List.zipWith, zipWith_map_same f g h x]

theorem flatten_getD_uniform {α : Type} (d : α) :
    ∀ (x : List (List α)) (M i m : Nat), (∀ y ∈ x, y.length = M) → m < M →
      x.flatten.getD (i * M + m) d = (x.getD i []).getD m d := by
  intro x
  induction x with
  | nil => intro M i m _ _; simp [List.getD]
  | cons y ys ih =>
    intro M i m hM hm
    cases i with
    | zero =>
      have hy : y.length = M := hM y (List.mem_cons_self y ys)
      rw [Nat.zero_mul, Nat.zero_add, List.flatten_cons, List.getD_cons_zero]
      exact List.getD_append y ys.flatten d m (by omega)
    | succ i =>
      have hy : y.length = M := hM y (List.mem_cons_self y ys)
      have hidx : (i + 1) * M + m = y.length + (i * M + m) := by
        rw [hy]; ring
      rw [List.flatten_cons, hidx,
        List.getD_append_right y ys.flatten d _ (Nat.le_add_right _ _),
        Nat.add_sub_cancel_left, List.getD_cons_succ]
      exact ih M i m (fun z hz => hM z (List.mem_cons_of_mem y hz)) hm

theorem range_map_getD_eq_take {α : Type} (d : α) (y : List α) :
    ∀ s, s ≤ y.length → (List.range s).map (fun m => y.getD m d) = y.take s := by
  intro s
  induction s with
  | zero => intro _; simp
  | succ s ih =>
    intro hs
    rw [List.range_succ, List.map_append, ih (Nat.le_of_succ_le hs), List.take_succ]
    have hlt : s < y.length := hs
    simp [List.getD_eq_getElem?_getD, List.getElem?_eq_getElem hlt]

theorem gatherIdx_gather_eq_take (x : List (List (List ℚ))) (M : Nat)
    (hM : ∀ y ∈ x, y.length = M) :
    ∀ (sp : List Nat) (i : Nat), sp.length + i = x.length →
      (∀ s ∈ sp, s ≤ M) →
      (gatherIdx M i sp).map (fun k => x.flatten.getD k []) =
        (List.zipWith (fun y s => y.take s) (x.drop i) sp).flatten := by
  intro sp
  induction sp with
  | nil => intro i _ _; simp [gatherIdx]
  | cons s sp ih =>
    intro i hlen hle
    have hlen' : sp.length + 1 + i = x.length := by simpa using hlen
    have hi : i < x.length := by omega
    have hyi : x.getD i [] = x[i] := List.getD_eq_getElem x [] hi
    have hmem : x[i] ∈ x := List.getElem_mem hi
    have hMi : (x.getD i []).length = M := by rw [hyi]; exact hM _ hmem
    have hdrop : x.drop i = x[i] :: x.drop (i + 1) :=
      List.drop_eq_getElem_cons hi
    rw [gatherIdx, List.map_append, hdrop]
    simp only [List.zipWith_cons_cons, List.flatten_cons]
    congr 1
    · rw [List.map_map]
      have hs : s ≤ M := hle s (List.mem_cons_self s sp)
      have h1 : ((fun k => x.flatten.getD k []) ∘ fun m => i * M + m)
          = fun m => x.flatten.getD (i * M + m) [] := rfl
      rw [h1]
      have h2 : ∀ m ∈ List.range s,
          x.flatten.getD (i * M + m) [] = (x.getD i []).getD m [] := by
        intro m hm
        exact flatten_getD_uniform [] x M i m hM (lt_of_lt_of_le (List.mem_range.1 hm) hs)
      rw [List.map_congr_left h2, range_map_getD_eq_take [] (x.getD i []) s (hMi ▸ hs), hyi]
    · exact ih (i + 1) (by omega) (fun t ht => hle t (List.mem_cons_of_mem s ht))

/-! ### Claims about the codec -/

/-- Claim C5: for a rank-3 padded tensor, `padded_to_packed` with a
`pad_value` keeps a flattened row iff the row is not equal to the pad
value on every channel; with `split_size` it keeps exactly the first
`split_size[i]` rows of item `i` (the gather by `arange(v) + i*M` equals
a per-item `take`); and giving both `split_size` and `pad_value` is an
error. -/
theorem claim5_padded_to_packed :
    (∀ (x : List (List (List ℚ))) (v : ℚ),
        padded_to_packed x none (some v) =
          .ok (x.flatten.filter (fun r => decide (¬ ∀ c ∈ r, c = v)))) ∧
    (∀ (x : List (List (List ℚ))) (sp : List Nat),
        sp.length = x.length →
        (∀ y ∈ x, y.length = (x.headD []).length) →
        (∀ s ∈ sp, s ≤ (x.headD []).length) →
        padded_to_packed x (some sp) none =
          .ok ((List.zipWith (fun y s => y.take s) x sp).flatten)) ∧
    (∀ (x : List (List (List ℚ))) (sp : List Nat) (v : ℚ),
        padded_to_packed x (some sp) (some v) =
          .error "Only one of split_size or pad_value should be provided.") := by
  refine ⟨?_, ?_, ?_⟩
  · intro x v
    simp only [padded_to_packed, Option.isSome_none, Bool.false_eq_true, false_and,
      if_false, Option.isSome_some]
    congr 1
    apply List.filter_congr
    intro r _
    simp only [decide_not]
    rw [Bool.eq_iff_iff]
    simp [List.any_eq_true, List.all_eq_true]
  · intro x sp hlen hM hle
    simp only [padded_to_packed, Option.isSome_some, Option.isSome_none,
      Bool.false_eq_true, and_false, if_false]
    rw [if_neg (by omega)]
    congr 1
    have h := gatherIdx_gather_eq_take x ((x.headD []).length) hM sp 0
      (by omega) hle
    simpa using h
  · intro x sp v
    simp [padded_to_packed]

/-- Witness for C5: the split-size path at a concrete `(2, 2, 1)` tensor
keeps one row of the first item and both rows of the second. -/
theorem claim5_witness :
    padded_to_packed [[[1], [0]], [[0], [2]]] (some [1, 2]) none = .ok [[1], [0], [2]] := by
  have h := claim5_padded_to_packed.2.1 [[[1], [0]], [[0], [2]]] [1, 2]
    (by decide) (by decide) (by decide)
  exact h.trans (congrArg Except.ok (by decide))

/-- Claim C6: packing a list of variable-length tensors and then
splitting the packed tensor by the returned per-item counts recovers the
original list. -/
theorem claim6_pack_roundtrip (x : List (List (List ℚ)))
    (packed : List (List ℚ)) (counts firstIdx toListIdx : List Nat)
    (h : list_to_packed x = .ok (packed, counts, firstIdx, toListIdx)) :
    packed_to_list packed counts = .ok x := by
  rw [list_to_packed] at h
  by_cases he : x.isEmpty
  · simp [he] at h
  · simp only [he, Bool.false_eq_true, if_false, Except.ok.injEq, Prod.mk.injEq] at h
    obtain ⟨h1, h2, -⟩ := h
    subst h1
    rw [packed_to_list, if_neg, ← h2, splitBySizes_flatten]
    rw [← h2]
    simp [List.length_flatten]

/-- Witness for C6: the round trip at a concrete two-item list. -/
theorem claim6_witness :
    packed_to_list [[1], [2], [3]] [2, 1] = .ok [[[1], [2]], [[3]]] := by
  exact claim6_pack_roundtrip [[[1], [2]], [[3]]] [[1], [2], [3]] [2, 1] [0, 2] [0, 0, 1]
    (by rfl)

/-- Claim C7: padding a non-empty list of rectangular rank-2 tensors (at
least one with non-zero leading extent) with any pad value and then
unpadding with each item's original per-axis lengths recovers the list. -/
theorem claim7_pad_roundtrip (x : List (List (List ℚ))) (v : ℚ)
    (hne : x ≠ [])
    (hsome : ∃ y ∈ x, y ≠ [])
    (hrect : ∀ y ∈ x, ∀ r ∈ y, r.length = (y.headD []).length) :
    ∃ p, list_to_padded x v = .ok p ∧
      padded_to_list p (some (x.map (fun y => (y.length, (y.headD []).length)))) =
        .ok x := by
  have he : x.isEmpty = false := by simpa [List.isEmpty_iff] using hne
  have hall : x.all (fun y => y.length = 0) = false := by
    obtain ⟨y, hy, hyne⟩ := hsome
    apply Bool.eq_false_iff.mpr
    intro hcontra
    rw [List.all_eq_true] at hcontra
    have h0 := hcontra y hy
    simp only [decide_eq_true_eq] at h0
    exact hyne (List.eq_nil_of_length_eq_zero h0)
  refine ⟨x.map (fun y =>
      if 0 < y.length then
        (y.map (fun r => r ++ List.replicate
          (((x.filter (fun z => 0 < z.length)).map
            (fun z => (z.headD []).length)).foldr max 0 - r.length) v))
          ++ List.replicate
            (((x.filter (fun z => 0 < z.length)).map List.length).foldr max 0 - y.length)
            (List.replicate
              (((x.filter (fun z => 0 < z.length)).map
                (fun z => (z.headD []).length)).foldr max 0) v)
      else List.replicate
        (((x.filter (fun z => 0 < z.length)).map List.length).foldr max 0)
        (List.replicate
          (((x.filter (fun z => 0 < z.length)).map
            (fun z => (z.headD []).length)).foldr max 0) v)), ?_, ?_⟩
  · rw [list_to_padded, if_neg (by simp [he]),
      if_neg (by rw [hall]; exact Bool.false_ne_true)]
  · rw [padded_to_list]
    rw [if_neg (by simp)]
    congr 1
    rw [zipWith_map_same]
    conv_rhs => rw [show x = x.map id from (List.map_id x).symm]
    apply List.map_congr_left
    intro y hy
    by_cases hylen : 0 < y.length
    · simp only [hylen, if_pos, id]
      have hA : (y.map (fun r => r ++ List.replicate
          (((x.filter (fun z => 0 < z.length)).map
            (fun z => (z.headD []).length)).foldr max 0 - r.length) v)).length = y.length :=
        List.length_map _ _
      rw [← hA, List.take_left, List.map_map]
      conv_rhs => rw [show y = y.map id from (List.map_id y).symm]
      apply List.map_congr_left
      intro r hr
      have hrl : r.length = (y.headD []).length := hrect y hy r hr
      simp only [Function.comp, id]
      rw [← hrl, List.take_left]
    · have hy0 : y = [] := by
        cases y with
        | nil => rfl
        | cons a l => simp at hylen
      subst hy0
      simp

/-- Witness for C7: the round trip at a concrete list containing one
non-empty and one empty item, with pad value 5. -/
theorem claim7_witness :
    ∃ p, list_to_padded [[[1, 2]], []] 5 = .ok p ∧
      padded_to_list p (some [(1, 2), (0, 0)]) = .ok [[[1, 2]], []] := by
  exact claim7_pad_roundtrip [[[1, 2]], []] 5 (by decide)
    ⟨[[1, 2]], by decide, by decide⟩ (by decide)

/-- Claim C10: `list_to_padded` with `pad_size=None` on a non-empty list
whose items all have zero leading extent raises (the per-axis maximum is
taken over an empty generator). -/
theorem claim10_all_empty_error (x : List (List (List ℚ))) (v : ℚ)
    (hne : x ≠ []) (hall : ∀ y ∈ x, y.length = 0) :
    list_to_padded x v = .error "max() arg is an empty sequence" := by
  have he : x.isEmpty = false := by simpa [List.isEmpty_iff] using hne
  have h2 : x.all (fun y => y.length = 0) = true := by
    simp only [List.all_eq_true, decide_eq_true_eq]
    exact hall
  rw [list_to_padded, if_neg (by simp [he]), if_pos h2]

/-- Witness for C10: the error at the concrete list `[[]]`. -/
theorem claim10_witness :
    list_to_padded [([] : List (List ℚ))] 0 = .error "max() arg is an empty sequence" := by
  exact claim10_all_empty_error [[]] 0 (by decide) (by decide)

/-! ## Barycentric coordinates: `_rand_barycentric_coords`
(sample_points_from_meshes.py lines 280-305)

The two uniform draws `uv = torch.rand(2, ...)` are the oracle inputs
`u`, `v`; the square-root transform is applied to them.  The real-valued
version below is the exact-arithmetic reading of the float code and is
used for claim C8; `rand_barycentric_coords_q` is the executable `qsqrt`
counterpart used inside the sampler model. -/

noncomputable def rand_barycentric_coords (u v : ℝ) : ℝ × ℝ × ℝ :=
  let u_sqrt := Real.sqrt u
  (1 - u_sqrt, u_sqrt * (1 - v), u_sqrt * v)

/-- Executable counterpart of `rand_barycentric_coords` over `ℚ`. -/
def rand_barycentric_coords_q (u v : ℚ) : ℚ × ℚ × ℚ :=
  let u_sqrt := qsqrt u
  (1 - u_sqrt, u_sqrt * (1 - v), u_sqrt * v)

/-- Claim C8: for uniforms `u, v ∈ [0,1)` the generated barycentric
weights are `w0 = 1 - √u`, `w1 = √u (1 - v)`, `w2 = √u v`; they sum to 1
and each lies in `[0, 1]`. -/
theorem claim8_barycentric (u v : ℝ) (hu0 : 0 ≤ u) (hu1 : u < 1)
    (hv0 : 0 ≤ v) (hv1 : v < 1) :
    (rand_barycentric_coords u v).1 = 1 - Real.sqrt u ∧
    (rand_barycentric_coords u v).2.1 = Real.sqrt u * (1 - v) ∧
    (rand_barycentric_coords u v).2.2 = Real.sqrt u * v ∧
    (rand_barycentric_coords u v).1 + (rand_barycentric_coords u v).2.1 +
      (rand_barycentric_coords u v).2.2 = 1 ∧
    (0 ≤ (rand_barycentric_coords u v).1 ∧ (rand_barycentric_coords u v).1 ≤ 1) ∧
    (0 ≤ (rand_barycentric_coords u v).2.1 ∧ (rand_barycentric_coords u v).2.1 ≤ 1) ∧
    (0 ≤ (rand_barycentric_coords u v).2.2 ∧ (rand_barycentric_coords u v).2.2 ≤ 1) := by
  have hs0 : 0 ≤ Real.sqrt u := Real.sqrt_nonneg u
  have hs1 : Real.sqrt u ≤ 1 := by
    rw [show (1 : ℝ) = Real.sqrt 1 from (Real.sqrt_one).symm]
    exact Real.sqrt_le_sqrt (le_of_lt hu1)
  have hv1' : v ≤ 1 := le_of_lt hv1
  refine ⟨rfl, rfl, rfl,
    by show 1 - Real.sqrt u + Real.sqrt u * (1 - v) + Real.sqrt u * v = 1; ring,
    ?_, ?_, ?_⟩
  · exact ⟨by show (0:ℝ) ≤ 1 - Real.sqrt u; linarith,
      by show (1:ℝ) - Real.sqrt u ≤ 1; linarith⟩
  · constructor
    · exact mul_nonneg hs0 (by linarith)
    · exact mul_le_one₀ hs1 (by linarith) (by linarith)
  · constructor
    · exact mul_nonneg hs0 hv0
    · exact mul_le_one₀ hs1 hv0 hv1'

/-- Witness for C8 at the concrete draw `u = 1/4`, `v = 1/2`. -/
theorem claim8_witness :
    (0 : ℝ) ≤ 1/4 ∧ (1/4 : ℝ) < 1 ∧ (0 : ℝ) ≤ 1/2 ∧ (1/2 : ℝ) < 1 ∧
    ((rand_barycentric_coords (1/4) (1/2)).1 +
      (rand_barycentric_coords (1/4) (1/2)).2.1 +
      (rand_barycentric_coords (1/4) (1/2)).2.2 = 1) := by
  refine ⟨by norm_num, by norm_num, by norm_num, by norm_num, ?_⟩
  exact (claim8_barycentric (1/4) (1/2) (by norm_num) (by norm_num)
    (by norm_num) (by norm_num)).2.2.2.1

/-! ## Geometry primitives -/

structure Vec3 where
  x : ℚ
  y : ℚ
  z : ℚ
  deriving DecidableEq

instance : Zero Vec3 := ⟨⟨0, 0, 0⟩⟩

instance : Add Vec3 := ⟨fun a b => ⟨a.x + b.x, a.y + b.y, a.z + b.z⟩⟩

instance : Sub Vec3 := ⟨fun a b => ⟨a.x - b.x, a.y - b.y, a.z - b.z⟩⟩

instance : SMul ℚ Vec3 := ⟨fun c a => ⟨c * a.x, c * a.y, c * a.z⟩⟩

theorem Vec3.add_def (a b : Vec3) : a + b = ⟨a.x + b.x, a.y + b.y, a.z + b.z⟩ := rfl

theorem Vec3.sub_def (a b : Vec3) : a - b = ⟨a.x - b.x, a.y - b.y, a.z - b.z⟩ := rfl

theorem Vec3.smul_def (c : ℚ) (a : Vec3) : c • a = ⟨c * a.x, c * a.y, c * a.z⟩ := rfl

theorem Vec3.zero_def : (0 : Vec3) = ⟨0, 0, 0⟩ := rfl

theorem Vec3.x_zero : (0 : Vec3).x = 0 := rfl

theorem Vec3.y_zero : (0 : Vec3).y = 0 := rfl

theorem Vec3.z_zero : (0 : Vec3).z = 0 := rfl

def dot (a b : Vec3) : ℚ := a.x * b.x + a.y * b.y + a.z * b.z

def cross (a b : Vec3) : Vec3 :=
  ⟨a.y * b.z - a.z * b.y, a.z * b.x - a.x * b.z, a.x * b.y - a.y * b.x⟩

/-- `Tensor.norm(dim=1)` of a 3-vector, with `qsqrt` for the float
square root. -/
def qnorm (a : Vec3) : ℚ := qsqrt (dot a a)

/-! ## CurvatureEstimator: `compute_mean_curvature`
(sample_points_from_meshes.py lines 22-51) -/

/-- Cotangent of the interior angle at vertex `c` of the triangle
`(p, q, c)`: `cos/sin = ⟨p-c, q-c⟩ / ‖(p-c) × (q-c)‖`. -/
def cotAt (p q c : Vec3) : ℚ :=
  dot (p - c) (q - c) / qnorm (cross (p - c) (q - c))

/-- Modelled from the spec: the off-diagonal cotangent weight of
`cot_laplacian` (imported from `pytorch3d.ops`, not under `src/`).
Spec section 4.3: the entry for an edge is half the sum of the
cotangents of the two angles opposite that edge in its adjacent faces. -/
def cotWeight (verts : List Vec3) (faces : List (Nat × Nat × Nat)) (i j : Nat) : ℚ :=
  (faces.map (fun f =>
    let va := verts.getD f.1 0
    let vb := verts.getD f.2.1 0
    let vc := verts.getD f.2.2 0
    (if (i = f.1 ∧ j = f.2.1) ∨ (i = f.2.1 ∧ j = f.1) then cotAt va vb vc / 2 else 0) +
    (if (i = f.2.1 ∧ j = f.2.2) ∨ (i = f.2.2 ∧ j = f.2.1) then cotAt vb vc va / 2 else 0) +
    (if (i = f.1 ∧ j = f.2.2) ∨ (i = f.2.2 ∧ j = f.1) then cotAt va vc vb / 2 else 0))).sum

/-- Modelled from the spec: `cot_laplacian` (not under `src/`).  Spec
section 4.3: off-diagonal entries are the cotangent edge weights and
diagonal entries make each row consistent with this weighting (rows sum
to zero).  The per-vertex inverse-area output of the real function is
unused by `compute_mean_curvature` and is not modelled. -/
def cot_laplacian (verts : List Vec3) (faces : List (Nat × Nat × Nat)) (i j : Nat) : ℚ :=
  if i = j then
    -(((List.range verts.length).filter (fun k => k ≠ i)).map (cotWeight verts faces i)).sum
  else cotWeight verts faces i j

def vecSum : List Vec3 → Vec3
  | [] => 0
  | a :: l => a + vecSum l

/-- `torch.sparse.mm(L.double(), verts_packed.double())` (line 37);
exact rationals stand in for double precision. -/
def mean_curvature_normals (verts : List Vec3) (faces : List (Nat × Nat × Nat)) : List Vec3 :=
  tabulate verts.length (fun i =>
    vecSum ((List.range verts.length).map
      (fun j => cot_laplacian verts faces i j • verts.getD j 0)))

def listMean (xs : List ℚ) : ℚ := xs.sum / xs.length

/-- Bessel-corrected sample variance (divide by `n - 1`). -/
def listVar (xs : List ℚ) : ℚ :=
  (xs.map (fun a => (a - listMean xs) ^ 2)).sum / ((xs.length : ℚ) - 1)

/-- `torch.std`: Bessel-corrected sample standard deviation, with the
float square root modelled by `qsqrt`. -/
def listStd (xs : List ℚ) : ℚ := qsqrt (listVar xs)

/-- `compute_mean_curvature` (lines 22-51).  The curvature normal is the
Laplacian applied to the packed vertex positions, the unsigned curvature
its row norm; with `signed`, the sign is recovered by projecting onto
the supplied per-vertex normal and multiplying by the magnitude, and the
result is z-score standardized over the whole packed vertex axis (a
single `mean()` / `std()` over all vertices of all meshes in the
batch). -/
def compute_mean_curvature (verts_packed : List Vec3)
    (faces_packed : List (Nat × Nat × Nat)) (vert_normals : List Vec3)
    (signed : Bool) : List ℚ :=
  let mcn := mean_curvature_normals verts_packed faces_packed
  let mean_curvature := mcn.map qnorm
  if signed then
    let signs := List.zipWith (fun m n => dot m n) mcn vert_normals
    let signed_mean_curvature := List.zipWith (fun a b => a * b) signs mean_curvature
    let mean := listMean signed_mean_curvature
    let std := listStd signed_mean_curvature
    signed_mean_curvature.map (fun a => (a - mean) / std)
  else mean_curvature

/-- The intermediate `signed_mean_curvature` vector of
`compute_mean_curvature` (lines 44-45), as a standalone definition:
projection of the curvature normal onto the supplied normal, times the
magnitude, over the whole packed vertex axis. -/
def signedCurvature (verts_packed : List Vec3)
    (faces_packed : List (Nat × Nat × Nat)) (vert_normals : List Vec3) : List ℚ :=
  let mcn := mean_curvature_normals verts_packed faces_packed
  List.zipWith (fun a b => a * b)
    (List.zipWith (fun m n => dot m n) mcn vert_normals) (mcn.map qnorm)

/-- In the signed case `compute_mean_curvature` is exactly the z-score
standardization of `signedCurvature` (definitional unfolding). -/
theorem compute_mean_curvature_signed (verts : List Vec3)
    (faces : List (Nat × Nat × Nat)) (normals : List Vec3) :
    compute_mean_curvature verts faces normals true =
      (signedCurvature verts faces normals).map
        (fun a => (a - listMean (signedCurvature verts faces normals)) /
          listStd (signedCurvature verts faces normals)) := rfl

/-! ## The mesh container (spec section 3)

`pytorch3d.structures.Meshes` is consumed by the sampler but is not
under `src/`; it is modelled from the spec as a list of per-mesh data
with derived packed accessors.  A mesh is empty (invalid) if it has zero
faces; packed faces carry the per-mesh vertex offsets. -/

/-- Modelled from the spec: one mesh of the external container.  Faces
index into this mesh's own vertex list; `vertNormals` models the
container capability behind `verts_normals_packed`. -/
structure Mesh where
  verts : List Vec3
  faces : List (Nat × Nat × Nat)
  vertNormals : List Vec3

instance : Inhabited Mesh := ⟨⟨[], [], []⟩⟩

/-- Modelled from the spec: the batch container, with optional packed
per-vertex features and the external texture-sampling capability
(`sample_textures`, modelled as an oracle from a face index and a
barycentric triple to a `C`-dimensional color). -/
structure MeshBatch where
  meshes : List Mesh
  vertsFeatures : Option (List (List (List ℚ)))
  hasTextures : Bool
  texSample : Nat → ℚ × ℚ × ℚ → List ℚ

def Mesh.isValid (m : Mesh) : Bool := !m.faces.isEmpty

def MeshBatch.numMeshes (mb : MeshBatch) : Nat := mb.meshes.length

/-- `meshes.valid` at index `i`. -/
def MeshBatch.validB (mb : MeshBatch) (i : Nat) : Bool :=
  (mb.meshes.getD i default).isValid

def MeshBatch.validIdxs (mb : MeshBatch) : List Nat :=
  (List.range mb.numMeshes).filter (fun i => mb.validB i)

def MeshBatch.numValid (mb : MeshBatch) : Nat := mb.validIdxs.length

/-- Position of valid mesh `i` among the valid meshes: the row of the
`(numValid, S)` tensors that belongs to batch element `i`. -/
def MeshBatch.validRank (mb : MeshBatch) (i : Nat) : Nat :=
  ((List.range i).filter (fun k => mb.validB k)).length

/-- `meshes.isempty()`: no meshes, or no valid mesh. -/
def MeshBatch.isempty (mb : MeshBatch) : Bool :=
  mb.meshes.isEmpty || mb.meshes.all (fun m => !m.isValid)

def MeshBatch.vertsFirstIdx (mb : MeshBatch) (i : Nat) : Nat :=
  ((mb.meshes.take i).map (fun m => m.verts.length)).sum

/-- `meshes.mesh_to_faces_packed_first_idx()` at index `i`. -/
def MeshBatch.facesFirstIdx (mb : MeshBatch) (i : Nat) : Nat :=
  ((mb.meshes.take i).map (fun m => m.faces.length)).sum

def MeshBatch.verts_packed (mb : MeshBatch) : List Vec3 :=
  (mb.meshes.map Mesh.verts).flatten

/-- `meshes.faces_packed()`: per-mesh faces with vertex offsets added. -/
def MeshBatch.faces_packed (mb : MeshBatch) : List (Nat × Nat × Nat) :=
  (tabulate mb.numMeshes (fun i =>
    (mb.meshes.getD i default).faces.map (fun f =>
      (f.1 + mb.vertsFirstIdx i, f.2.1 + mb.vertsFirstIdx i,
        f.2.2 + mb.vertsFirstIdx i)))).flatten

def MeshBatch.verts_normals_packed (mb : MeshBatch) : List Vec3 :=
  (mb.meshes.map Mesh.vertNormals).flatten

def MeshBatch.features_packed (mb : MeshBatch) : List (List ℚ) :=
  (mb.vertsFeatures.getD []).flatten

/-- `features.shape[-1]`. -/
def MeshBatch.featDim (mb : MeshBatch) : Nat := (mb.features_packed.headD []).length

/-! ## SurfaceSampler: `sample_points_from_meshes`
(sample_points_from_meshes.py lines 53-277) -/

/-- The random source: `faceDraw m s` models the multinomial face draw
(line 144) for the `m`-th valid mesh and sample `s`, as a local face
index within that mesh; `u`, `v` model the two uniform `torch.rand`
draws consumed by `_rand_barycentric_coords`.  A random seed corresponds
to a choice of this oracle. -/
structure Draws where
  faceDraw : Nat → Nat → Nat
  u : Nat → Nat → ℚ
  v : Nat → Nat → ℚ

inductive InterpMode where
  | barycentric
  | majority
  | nearest
  deriving DecidableEq

/-- Line 124: `num_samples = 100000  # hard coded`, shadowing the
caller-supplied argument. -/
def hardcodedNumSamples : Nat := 100000

/-- `sample_face_idxs_raw`: the externally supplied draw if given, else
the multinomial oracle (lines 134-146). -/
def rawFaceIdx (sfir : Option (Nat → Nat → Nat)) (dr : Draws) : Nat → Nat → Nat :=
  sfir.getD dr.faceDraw

/-- Line 148: the raw local draw plus
`mesh_to_face[meshes.valid]` for the `m`-th valid mesh gives the global
packed face index. -/
def sampleFaceIdx (mb : MeshBatch) (sfir : Option (Nat → Nat → Nat)) (dr : Draws)
    (m s : Nat) : Nat :=
  rawFaceIdx sfir dr m s + mb.facesFirstIdx (mb.validIdxs.getD m 0)

/-- The barycentric weights `(w0, w1, w2)` for valid-mesh row `m`,
sample `s` (lines 156-158). -/
def wc (dr : Draws) (m s : Nat) : ℚ × ℚ × ℚ :=
  rand_barycentric_coords_q (dr.u m s) (dr.v m s)

/-- The three vertex positions `a, b, c` of the sampled face (lines
152-153 and 161-163); indices are in range for well-formed containers,
out-of-range access is modelled with a zero default. -/
def faceVerts (mb : MeshBatch) (g : Nat) : Vec3 × Vec3 × Vec3 :=
  let f := mb.faces_packed.getD g (0, 0, 0)
  (mb.verts_packed.getD f.1 0, mb.verts_packed.getD f.2.1 0,
    mb.verts_packed.getD f.2.2 0)

/-- Lines 131-168: the `(num_meshes, num_samples, 3)` samples tensor,
zero-initialized; rows of valid meshes are overwritten through the
boolean mask (`samples[meshes.valid] = ...`), with either the
barycentric combination or the face centroid. -/
def samplesTensor (mb : MeshBatch) (use_centroids : Bool)
    (sfir : Option (Nat → Nat → Nat)) (dr : Draws) : List (List Vec3) :=
  tabulate mb.numMeshes (fun i =>
    if mb.validB i then
      tabulate hardcodedNumSamples (fun s =>
        let m := mb.validRank i
        let abc := faceVerts mb (sampleFaceIdx mb sfir dr m s)
        if use_centroids then
          (1/3 : ℚ) • abc.1 + (1/3 : ℚ) • abc.2.1 + (1/3 : ℚ) • abc.2.2
        else
          let w := wc dr m s
          w.1 • abc.1 + w.2.1 • abc.2.1 + w.2.2 • abc.2.2)
    else List.replicate hardcodedNumSamples 0)

/-- `sys.float_info.epsilon`. -/
def floatEps : ℚ := 1 / 2 ^ 52

/-- The flat face normal of lines 176-180, unit-normalized with the
epsilon floor on the denominator. -/
def faceNormal (mb : MeshBatch) (g : Nat) : Vec3 :=
  let abc := faceVerts mb g
  let c := cross (abc.2.1 - abc.1) (abc.2.2 - abc.2.1)
  (max (qnorm c) floatEps)⁻¹ • c

/-- Lines 171-181: the normals tensor, zero-initialized, valid rows
overwritten with the (flat) face normal of the sampled face. -/
def normalsTensor (mb : MeshBatch) (sfir : Option (Nat → Nat → Nat))
    (dr : Draws) : List (List Vec3) :=
  tabulate mb.numMeshes (fun i =>
    if mb.validB i then
      tabulate hardcodedNumSamples (fun s =>
        faceNormal mb (sampleFaceIdx mb sfir dr (mb.validRank i) s))
    else List.replicate hardcodedNumSamples 0)

/-- Lines 183-191: per-sample curvature = flat average of the three
vertex curvatures of the sampled face.  The tensor has one row per
VALID mesh (its shape follows `sample_face_idxs`); the float16 cast
(`.half()`) is not modelled. -/
def curvatureTensor (mb : MeshBatch) (sfir : Option (Nat → Nat → Nat))
    (dr : Draws) : List (List ℚ) :=
  let vc := compute_mean_curvature mb.verts_packed mb.faces_packed
    mb.verts_normals_packed true
  tabulate mb.numValid (fun m =>
    tabulate hardcodedNumSamples (fun s =>
      let f := mb.faces_packed.getD (sampleFaceIdx mb sfir dr m s) (0, 0, 0)
      (vc.getD f.1 0 + vc.getD f.2.1 0 + vc.getD f.2.2 0) / 3))

/-- Lines 193-205: texture lookup through the external capability, one
fragment per sample.  Only reachable when every mesh is valid (the
`view(len(meshes), ...)` reshape of line 195 requires it; see
`sample_points_errors`), in which case valid-row `i` is batch row `i`. -/
def texturesTensor (mb : MeshBatch) (sfir : Option (Nat → Nat → Nat))
    (dr : Draws) : List (List (List ℚ)) :=
  tabulate mb.numMeshes (fun i =>
    tabulate hardcodedNumSamples (fun s =>
      mb.texSample (sampleFaceIdx mb sfir dr i s) (wc dr i s)))

/-- `torch.mode` over three values per channel: the most frequent value,
ties resolved to the smallest. -/
def mode3 (a b c : ℚ) : ℚ :=
  if a = b ∨ a = c then a else if b = c then b else min a (min b c)

/-- `torch.argmax` over the stacked `(w0, w1, w2)`: index of the first
maximal weight. -/
def argmax3 (w : ℚ × ℚ × ℚ) : Nat :=
  if w.2.1 ≤ w.1 ∧ w.2.2 ≤ w.1 then 0 else if w.2.2 ≤ w.2.1 then 1 else 2

/-- The three per-vertex feature rows of the sampled face
(`face_features = features[faces]`, line 213). -/
def faceFeatures (mb : MeshBatch) (g : Nat) : List ℚ × List ℚ × List ℚ :=
  let f := mb.faces_packed.getD g (0, 0, 0)
  (mb.features_packed.getD f.1 [], mb.features_packed.getD f.2.1 [],
    mb.features_packed.getD f.2.2 [])

/-- Lines 207-237: the interpolated-features tensor.
* `barycentric` writes through the valid mask into the `(-1)`-filled
  `(num_meshes, S, D)` tensor (lines 212-220), so invalid rows keep the
  `-1` fill;
* `majority` and `nearest` REASSIGN the whole variable to a tensor built
  from `face_features[sample_face_idxs]`, which has one row per VALID
  mesh only (lines 222-234);
* for `nearest` the `squeeze(-1)`/`gather` combination is only
  well-formed for feature dimension 1 (otherwise `torch.gather` raises;
  that error is collected in `sample_points_errors`), and the result
  carries the single gathered channel. -/
def featuresTensor (mb : MeshBatch) (mode : InterpMode)
    (sfir : Option (Nat → Nat → Nat)) (dr : Draws) : List (List (List ℚ)) :=
  let D := mb.featDim
  match mode with
  | .barycentric =>
    tabulate mb.numMeshes (fun i =>
      if mb.validB i then
        tabulate hardcodedNumSamples (fun s =>
          let m := mb.validRank i
          let ff := faceFeatures mb (sampleFaceIdx mb sfir dr m s)
          let w := wc dr m s
          tabulate D (fun d =>
            w.1 * ff.1.getD d 0 + w.2.1 * ff.2.1.getD d 0 + w.2.2 * ff.2.2.getD d 0))
      else List.replicate hardcodedNumSamples (List.replicate D (-1)))
  | .majority =>
    tabulate mb.numValid (fun m =>
      tabulate hardcodedNumSamples (fun s =>
        let ff := faceFeatures mb (sampleFaceIdx mb sfir dr m s)
        tabulate D (fun d => mode3 (ff.1.getD d 0) (ff.2.1.getD d 0) (ff.2.2.getD d 0))))
  | .nearest =>
    tabulate mb.numValid (fun m =>
      tabulate hardcodedNumSamples (fun s =>
        let ff := faceFeatures mb (sampleFaceIdx mb sfir dr m s)
        let k := argmax3 (wc dr m s)
        [(if k = 0 then ff.1 else if k = 1 then ff.2.1 else ff.2.2).getD 0 0]))

/-- The `(num_valid_meshes, S)` global packed face index tensor that is
always part of the returned tuple. -/
def faceIdxsTensor (mb : MeshBatch) (sfir : Option (Nat → Nat → Nat))
    (dr : Draws) : List (List Nat) :=
  tabulate mb.numValid (fun m =>
    tabulate hardcodedNumSamples (sampleFaceIdx mb sfir dr m))

/-- One element of the returned tuple. -/
inductive Out where
  | samples (t : List (List Vec3))
  | normals (t : List (List Vec3))
  | textures (t : List (List (List ℚ)))
  | sampleFeatures (t : List (List (List ℚ)))
  | curvature (t : List (List ℚ))
  | faceIdxs (t : List (List Nat))

inductive OutTag where
  | samples
  | normals
  | textures
  | sampleFeatures
  | curvature
  | faceIdxs
  deriving DecidableEq

def Out.tag : Out → OutTag
  | .samples _ => .samples
  | .normals _ => .normals
  | .textures _ => .textures
  | .sampleFeatures _ => .sampleFeatures
  | .curvature _ => .curvature
  | .faceIdxs _ => .faceIdxs

/-- The return cascade of lines 243-277, translated branch by branch
(`interpolate_features` is truthy iff a mode was given). -/
def assemble (return_normals return_textures : Bool) (interp : Option InterpMode)
    (return_curvature : Bool) (samples normals : List (List Vec3))
    (textures features : List (List (List ℚ))) (curv : List (List ℚ))
    (faceIdxs : List (List Nat)) : List Out :=
  if return_normals ∧ return_textures ∧ interp.isSome then
    [.samples samples, .normals normals, .textures textures,
      .sampleFeatures features, .faceIdxs faceIdxs]
  else if return_normals ∧ return_textures then
    [.samples samples, .normals normals, .textures textures, .faceIdxs faceIdxs]
  else if return_normals ∧ interp.isSome then
    [.samples samples, .normals normals, .sampleFeatures features, .faceIdxs faceIdxs]
  else if return_normals ∧ return_curvature then
    [.samples samples, .normals normals, .curvature curv, .faceIdxs faceIdxs]
  else if return_textures ∧ interp.isSome then
    [.samples samples, .textures textures, .sampleFeatures features, .faceIdxs faceIdxs]
  else if interp.isSome then
    [.samples samples, .sampleFeatures features, .faceIdxs faceIdxs]
  else if return_normals then
    [.samples samples, .normals normals, .faceIdxs faceIdxs]
  else if return_textures then
    [.samples samples, .textures textures, .faceIdxs faceIdxs]
  else [.samples samples, .faceIdxs faceIdxs]

/-- The `raise` branches of `sample_points_from_meshes`, in source
order (lines 109-121), followed by the two shape errors that fire later
inside the computation: the `view(len(meshes), ...)` reshape of the
textures path (line 195) requires every mesh to be valid, and the
`nearest` interpolation's `gather` (lines 230-234) requires feature
dimension 1.  The vertex-finiteness check (line 114) cannot fire in the
exact rational model and the unknown-interpolation branch (line 237) is
unrepresentable in the mode enumeration; neither is modelled. -/
def sample_points_errors (mb : MeshBatch) (return_textures : Bool)
    (interp : Option InterpMode) : Option String :=
  if mb.isempty then some "Meshes are empty."
  else if return_textures ∧ ¬ mb.hasTextures then some "Meshes do not contain textures."
  else if interp.isSome ∧ mb.vertsFeatures.isNone then
    some "Meshes do not contain vertex features."
  else if return_textures ∧ mb.numValid ≠ mb.numMeshes then
    some "view size is not compatible with input size"
  else if interp = some .nearest ∧ mb.featDim ≠ 1 then
    some "gather index tensor rank mismatch"
  else none

set_option linter.unusedVariables false in
/-- `sample_points_from_meshes` (lines 53-277).  The caller-supplied
`num_samples` is shadowed by the hard-coded constant of line 124 and
never used; the returned tuple is the branch cascade of lines 243-277
over the component tensors.  All raise branches are collected, in source
order, in `sample_points_errors`. -/
def sample_points_from_meshes (mb : MeshBatch) (num_samples : Nat)
    (return_normals return_textures : Bool)
    (interpolate_features : Option InterpMode)
    (use_centroids return_curvature : Bool)
    (sample_face_idxs_raw : Option (Nat → Nat → Nat)) (dr : Draws) :
    Except String (List Out) :=
  match sample_points_errors mb return_textures interpolate_features with
  | some e => .error e
  | none =>
    .ok (assemble return_normals return_textures interpolate_features return_curvature
      (samplesTensor mb use_centroids sample_face_idxs_raw dr)
      (normalsTensor mb sample_face_idxs_raw dr)
      (texturesTensor mb sample_face_idxs_raw dr)
      (match interpolate_features with
       | some mode => featuresTensor mb mode sample_face_idxs_raw dr
       | none => [])
      (curvatureTensor mb sample_face_idxs_raw dr)
      (faceIdxsTensor mb sample_face_idxs_raw dr))

/-! ### Observation helpers on the returned tuple -/

def tagsOf : Except String (List Out) → Option (List OutTag)
  | .ok l => some (l.map Out.tag)
  | .error _ => none

def samplesOf : Except String (List Out) → Option (List (List Vec3))
  | .ok l => l.findSome? (fun o => match o with | .samples t => some t | _ => none)
  | .error _ => none

def normalsOf : Except String (List Out) → Option (List (List Vec3))
  | .ok l => l.findSome? (fun o => match o with | .normals t => some t | _ => none)
  | .error _ => none

def featuresOf : Except String (List Out) → Option (List (List (List ℚ)))
  | .ok l => l.findSome? (fun o => match o with | .sampleFeatures t => some t | _ => none)
  | .error _ => none

/-- The tuple composition of the return cascade (lines 243-277) as a
pure function of the four flags. -/
def returnTags (rn rt fi rc : Bool) : List OutTag :=
  if rn ∧ rt ∧ fi then [.samples, .normals, .textures, .sampleFeatures, .faceIdxs]
  else if rn ∧ rt then [.samples, .normals, .textures, .faceIdxs]
  else if rn ∧ fi then [.samples, .normals, .sampleFeatures, .faceIdxs]
  else if rn ∧ rc then [.samples, .normals, .curvature, .faceIdxs]
  else if rt ∧ fi then [.samples, .textures, .sampleFeatures, .faceIdxs]
  else if fi then [.samples, .sampleFeatures, .faceIdxs]
  else if rn then [.samples, .normals, .faceIdxs]
  else if rt then [.samples, .textures, .faceIdxs]
  else [.samples, .faceIdxs]

theorem assemble_map_tag (rn rt : Bool) (fI : Option InterpMode) (rc : Bool)
    (s n : List (List Vec3)) (t f : List (List (List ℚ))) (c : List (List ℚ))
    (g : List (List Nat)) :
    (assemble rn rt fI rc s n t f c g).map Out.tag = returnTags rn rt fI.isSome rc := by
  cases rn <;> cases rt <;> cases rc <;> cases fI <;> rfl

theorem assemble_head (rn rt : Bool) (fI : Option InterpMode) (rc : Bool)
    (s n : List (List Vec3)) (t f : List (List (List ℚ))) (c : List (List ℚ))
    (g : List (List Nat)) :
    (assemble rn rt fI rc s n t f c g).head? = some (Out.samples s) := by
  cases rn <;> cases rt <;> cases rc <;> cases fI <;> rfl

theorem samplesOf_ok_assemble (rn rt : Bool) (fI : Option InterpMode) (rc : Bool)
    (s n : List (List Vec3)) (t f : List (List (List ℚ))) (c : List (List ℚ))
    (g : List (List Nat)) :
    samplesOf (.ok (assemble rn rt fI rc s n t f c g)) = some s := by
  cases rn <;> cases rt <;> cases rc <;> cases fI <;> rfl

theorem normalsOf_ok_assemble (rn rt : Bool) (fI : Option InterpMode) (rc : Bool)
    (s n : List (List Vec3)) (t f : List (List (List ℚ))) (c : List (List ℚ))
    (g : List (List Nat)) :
    normalsOf (.ok (assemble rn rt fI rc s n t f c g)) =
      if rn = true then some n else none := by
  cases rn <;> cases rt <;> cases rc <;> cases fI <;> rfl

theorem featuresOf_ok_assemble (rn rt : Bool) (fI : Option InterpMode) (rc : Bool)
    (s n : List (List Vec3)) (t f : List (List (List ℚ))) (c : List (List ℚ))
    (g : List (List Nat)) :
    featuresOf (.ok (assemble rn rt fI rc s n t f c g)) =
      if fI.isSome then some f else none := by
  cases rn <;> cases rt <;> cases rc <;> cases fI <;> rfl

/-! ### Concrete inputs used by the sampler claims -/

/-- A single valid triangle mesh. -/
def mesh1 : Mesh :=
  ⟨[⟨0, 0, 0⟩, ⟨1, 0, 0⟩, ⟨0, 1, 0⟩], [(0, 1, 2)],
    [⟨0, 0, 1⟩, ⟨0, 0, 1⟩, ⟨0, 0, 1⟩]⟩

def mb1 : MeshBatch := ⟨[mesh1], none, false, fun _ _ => []⟩

/-- A mesh with two faces of different centroids (both with positive
area, so either is drawable by the multinomial). -/
def mesh4 : Mesh :=
  ⟨[⟨0, 0, 0⟩, ⟨1, 0, 0⟩, ⟨0, 1, 0⟩, ⟨5, 5, 0⟩], [(0, 1, 2), (1, 3, 2)],
    List.replicate 4 ⟨0, 0, 1⟩⟩

def mb4 : MeshBatch := ⟨[mesh4], none, false, fun _ _ => []⟩

/-- A batch of one empty and one valid mesh carrying 1-dimensional
vertex features. -/
def meshValid3 : Mesh :=
  ⟨[⟨1, 2, 3⟩, ⟨2, 2, 3⟩, ⟨1, 3, 3⟩], [(0, 1, 2)], List.replicate 3 ⟨0, 0, 1⟩⟩

def mb3 : MeshBatch :=
  ⟨[⟨[], [], []⟩, meshValid3], some [[], [[7], [8], [9]]], false, fun _ _ => []⟩

/-- A random state drawing face 0 and uniforms 0 everywhere. -/
def draws0 : Draws := ⟨fun _ _ => 0, fun _ _ => 0, fun _ _ => 0⟩

/-- A different random state: draws face 1 everywhere. -/
def draws1 : Draws := ⟨fun _ _ => 1, fun _ _ => 0, fun _ _ => 0⟩

/-! ### Claim C1 -/

/-- Claim C1: the effective number of samples per mesh is forced to the
constant 100000 regardless of the caller-supplied `num_samples` (the
whole result is independent of that argument), and the returned
positions tensor of every successful call has shape
`(numMeshes, 100000, 3)` (the third extent is the `Vec3` type). -/
theorem claim1_num_samples_hardcoded :
    (∀ (mb : MeshBatch) (ns ns' : Nat) (rn rt : Bool) (fI : Option InterpMode)
       (uc rc : Bool) (sfir : Option (Nat → Nat → Nat)) (dr : Draws),
       sample_points_from_meshes mb ns rn rt fI uc rc sfir dr =
         sample_points_from_meshes mb ns' rn rt fI uc rc sfir dr) ∧
    (∀ (mb : MeshBatch) (ns : Nat) (rn rt : Bool) (fI : Option InterpMode)
       (uc rc : Bool) (sfir : Option (Nat → Nat → Nat)) (dr : Draws)
       (l : List Out),
       sample_points_from_meshes mb ns rn rt fI uc rc sfir dr = .ok l →
       ∃ t, l.head? = some (Out.samples t) ∧ t.length = mb.numMeshes ∧
         ∀ r ∈ t, r.length = 100000) := by
  constructor
  · intro mb ns ns' rn rt fI uc rc sfir dr
    rfl
  · intro mb ns rn rt fI uc rc sfir dr l h
    rw [sample_points_from_meshes.eq_def] at h
    cases herr : sample_points_errors mb rt fI with
    | some e => rw [herr] at h; exact absurd h (by simp)
    | none =>
      rw [herr] at h
      rw [Except.ok.injEq] at h
      subst h
      refine ⟨samplesTensor mb uc sfir dr, assemble_head _ _ _ _ _ _ _ _ _ _, ?_, ?_⟩
      · rw [samplesTensor, length_tabulate]
      · intro r hr
        rw [samplesTensor] at hr
        obtain ⟨i, -, hf⟩ := mem_tabulate hr
        by_cases hv : mb.validB i
        · rw [if_pos hv] at hf
          rw [← hf, length_tabulate]
          rfl
        · rw [if_neg hv] at hf
          rw [← hf, List.length_replicate]
          rfl

/-- Witness for C1: a successful call on a one-triangle batch with
`num_samples = 7`; the positions payload has 1 row of 100000 samples. -/
theorem claim1_witness :
    sample_points_from_meshes mb1 7 false false none false false none draws0 =
      .ok (assemble false false none false
        (samplesTensor mb1 false none draws0) (normalsTensor mb1 none draws0)
        (texturesTensor mb1 none draws0) [] (curvatureTensor mb1 none draws0)
        (faceIdxsTensor mb1 none draws0)) ∧
    ∃ t, (assemble false false none false
        (samplesTensor mb1 false none draws0) (normalsTensor mb1 none draws0)
        (texturesTensor mb1 none draws0) [] (curvatureTensor mb1 none draws0)
        (faceIdxsTensor mb1 none draws0)).head? = some (Out.samples t) ∧
      t.length = mb1.numMeshes ∧ ∀ r ∈ t, r.length = 100000 := by
  constructor
  · rfl
  · exact claim1_num_samples_hardcoded.2 mb1 7 false false none false false none draws0
      _ rfl

/-! ### Claim C2 -/

/-- Counterexample to claim C2: requesting `return_curvature = True`
with `return_normals = False` (other flags off) returns just
`(samples, sample_face_idxs)` — the tuple contains no curvature
tensor. -/
theorem claim2_counterexample :
    tagsOf (sample_points_from_meshes mb1 10000 false false none false true none draws0) =
      some [OutTag.samples, OutTag.faceIdxs] ∧
    OutTag.curvature ∉ [OutTag.samples, OutTag.faceIdxs] := by
  exact ⟨rfl, by decide⟩

/-- Amended claim C2: positions and face indices are always returned and
normals / textures / interpolated features are returned exactly when
requested, in the fixed priority order of the cascade; but the curvature
tensor is returned only when `return_normals` and `return_curvature` are
both set AND `return_textures` is off AND no feature interpolation was
requested — in every other combination the requested curvature is
silently dropped. -/
theorem claim2_amended :
    (∀ (mb : MeshBatch) (ns : Nat) (rn rt : Bool) (fI : Option InterpMode)
       (uc rc : Bool) (sfir : Option (Nat → Nat → Nat)) (dr : Draws)
       (l : List Out),
       sample_points_from_meshes mb ns rn rt fI uc rc sfir dr = .ok l →
       l.map Out.tag = returnTags rn rt fI.isSome rc) ∧
    (∀ rn rt fi rc : Bool,
       OutTag.samples ∈ returnTags rn rt fi rc ∧
       OutTag.faceIdxs ∈ returnTags rn rt fi rc ∧
       (OutTag.normals ∈ returnTags rn rt fi rc ↔ rn = true) ∧
       (OutTag.textures ∈ returnTags rn rt fi rc ↔ rt = true) ∧
       (OutTag.sampleFeatures ∈ returnTags rn rt fi rc ↔ fi = true) ∧
       (OutTag.curvature ∈ returnTags rn rt fi rc ↔
         (rn = true ∧ rc = true ∧ rt = false ∧ fi = false))) := by
  constructor
  · intro mb ns rn rt fI uc rc sfir dr l h
    rw [sample_points_from_meshes.eq_def] at h
    cases herr : sample_points_errors mb rt fI with
    | some e => rw [herr] at h; exact absurd h (by simp)
    | none =>
      rw [herr] at h
      rw [Except.ok.injEq] at h
      subst h
      exact assemble_map_tag _ _ _ _ _ _ _ _ _ _
  · decide

/-- Witness for C2's amended theorem: a successful call with normals and
curvature requested returns the `[samples, normals, curvature, faceIdxs]`
composition. -/
theorem claim2_witness :
    (assemble true false none true
        (samplesTensor mb1 false none draws0) (normalsTensor mb1 none draws0)
        (texturesTensor mb1 none draws0) [] (curvatureTensor mb1 none draws0)
        (faceIdxsTensor mb1 none draws0)).map Out.tag =
      returnTags true false false true := by
  exact claim2_amended.1 mb1 11 true false none false true none draws0 _ rfl

/-! ### Claim C4 -/

/-- Counterexample to claim C4: on a mesh with two faces of different
centroids, `use_centroids = True` under two different random states
(face draws 0 vs 1) returns different sampled position tensors — the
multinomial face draw is still consumed, only the barycentric draw is
bypassed. -/
theorem claim4_counterexample :
    samplesOf (sample_points_from_meshes mb4 100 false false none true false none draws0) ≠
      samplesOf (sample_points_from_meshes mb4 100 false false none true false none draws1) := by
  intro h
  have e0 : (samplesOf (sample_points_from_meshes mb4 100 false false none true false
      none draws0)).bind (fun t => (t.headD []).head?) =
      some ((1/3 : ℚ) • (⟨0, 0, 0⟩ : Vec3) + (1/3 : ℚ) • (⟨1, 0, 0⟩ : Vec3) +
        (1/3 : ℚ) • (⟨0, 1, 0⟩ : Vec3)) := rfl
  have e1 : (samplesOf (sample_points_from_meshes mb4 100 false false none true false
      none draws1)).bind (fun t => (t.headD []).head?) =
      some ((1/3 : ℚ) • (⟨1, 0, 0⟩ : Vec3) + (1/3 : ℚ) • (⟨5, 5, 0⟩ : Vec3) +
        (1/3 : ℚ) • (⟨0, 1, 0⟩ : Vec3)) := rfl
  rw [h, e1] at e0
  have e2 := Option.some.inj e0
  simp only [Vec3.smul_def, Vec3.add_def, Vec3.mk.injEq] at e2
  norm_num at e2

/-- Amended claim C4: with `use_centroids = True` the sampled positions
are independent of the state of the barycentric uniform draws (the `u`,
`v` streams); they still depend on the face-index draw, which is only
fixed when `sample_face_idxs_raw` is supplied (see the
counterexample). -/
theorem claim4_amended (mb : MeshBatch) (ns : Nat) (rn rt : Bool)
    (fI : Option InterpMode) (rc : Bool) (sfir : Option (Nat → Nat → Nat))
    (fd : Nat → Nat → Nat) (u v u' v' : Nat → Nat → ℚ) :
    samplesOf (sample_points_from_meshes mb ns rn rt fI true rc sfir ⟨fd, u, v⟩) =
      samplesOf (sample_points_from_meshes mb ns rn rt fI true rc sfir ⟨fd, u', v'⟩) := by
  rw [sample_points_from_meshes.eq_def, sample_points_from_meshes.eq_def]
  cases herr : sample_points_errors mb rt fI with
  | some e => rfl
  | none =>
    rw [samplesOf_ok_assemble, samplesOf_ok_assemble]
    rfl

/-! ### Claim C3 -/

/-- Counterexample to claim C3: with interpolation mode `'majority'` on
a batch of one empty and one valid mesh, the features output is rebuilt
from `face_features[sample_face_idxs]` and has one row per VALID mesh
only — the empty mesh has no output row at all (in particular no
all-`(-1)` row; the output length is 1 while the batch has 2 meshes). -/
theorem claim3_counterexample :
    featuresOf (sample_points_from_meshes mb3 100 false false (some .majority)
        false false none draws0) =
      some (featuresTensor mb3 .majority none draws0) ∧
    (featuresTensor mb3 .majority none draws0).length = 1 ∧
    (featuresTensor mb3 .majority none draws0).get? 1 = none ∧
    mb3.numMeshes = 2 := by
  refine ⟨rfl, ?_, rfl, rfl⟩
  rw [featuresTensor, length_tabulate]
  rfl

/-- Amended claim C3: for every batch, the output rows of an empty
(invalid) mesh are entirely zero for positions and normals, and entirely
`-1` for interpolated features under the `'barycentric'` mode; under
`'majority'` and `'nearest'` the features tensor instead covers only the
valid meshes (empty meshes are dropped from it).  On the concrete
`[empty, valid]` batch the valid mesh's position row is non-trivial. -/
theorem claim3_amended :
    (∀ (mb : MeshBatch) (ns : Nat) (rn rt : Bool) (fI : Option InterpMode)
       (uc rc : Bool) (sfir : Option (Nat → Nat → Nat)) (dr : Draws)
       (l : List Out),
       sample_points_from_meshes mb ns rn rt fI uc rc sfir dr = .ok l →
       samplesOf (.ok l) = some (samplesTensor mb uc sfir dr) ∧
       (rn = true → normalsOf (.ok l) = some (normalsTensor mb sfir dr)) ∧
       (∀ mode, fI = some mode →
         featuresOf (.ok l) = some (featuresTensor mb mode sfir dr))) ∧
    (∀ (mb : MeshBatch) (uc : Bool) (sfir : Option (Nat → Nat → Nat)) (dr : Draws)
       (i : Nat), mb.validB i = false → i < mb.numMeshes →
       (samplesTensor mb uc sfir dr).get? i =
         some (List.replicate hardcodedNumSamples 0)) ∧
    (∀ (mb : MeshBatch) (sfir : Option (Nat → Nat → Nat)) (dr : Draws)
       (i : Nat), mb.validB i = false → i < mb.numMeshes →
       (normalsTensor mb sfir dr).get? i =
         some (List.replicate hardcodedNumSamples 0)) ∧
    (∀ (mb : MeshBatch) (sfir : Option (Nat → Nat → Nat)) (dr : Draws)
       (i : Nat), mb.validB i = false → i < mb.numMeshes →
       (featuresTensor mb .barycentric sfir dr).get? i =
         some (List.replicate hardcodedNumSamples (List.replicate mb.featDim (-1)))) ∧
    (∀ (mb : MeshBatch) (sfir : Option (Nat → Nat → Nat)) (dr : Draws)
       (mode : InterpMode), mode = .majority ∨ mode = .nearest →
       (featuresTensor mb mode sfir dr).length = mb.numValid) ∧
    (((samplesTensor mb3 false none draws0).getD 1 []).head? = some ⟨1, 2, 3⟩ ∧
      (⟨1, 2, 3⟩ : Vec3) ≠ 0) := by
  refine ⟨?_, ?_, ?_, ?_, ?_, ?_, ?_⟩
  · intro mb ns rn rt fI uc rc sfir dr l h
    rw [sample_points_from_meshes.eq_def] at h
    cases herr : sample_points_errors mb rt fI with
    | some e => rw [herr] at h; exact absurd h (by simp)
    | none =>
      rw [herr] at h
      rw [Except.ok.injEq] at h
      subst h
      refine ⟨samplesOf_ok_assemble _ _ _ _ _ _ _ _ _ _, ?_, ?_⟩
      · intro hrn
        rw [normalsOf_ok_assemble, if_pos hrn]
      · intro mode hmode
        subst hmode
        rw [featuresOf_ok_assemble]
        rfl
  · intro mb uc sfir dr i hv hi
    rw [samplesTensor, get?_tabulate, if_pos hi, if_neg (by rw [hv]; exact Bool.false_ne_true)]
  · intro mb sfir dr i hv hi
    rw [normalsTensor, get?_tabulate, if_pos hi, if_neg (by rw [hv]; exact Bool.false_ne_true)]
  · intro mb sfir dr i hv hi
    rw [featuresTensor, get?_tabulate, if_pos hi, if_neg (by rw [hv]; exact Bool.false_ne_true)]
  · intro mb sfir dr mode hmode
    rcases hmode with h | h <;> subst h <;> rw [featuresTensor, length_tabulate]
  · have e3 : ((samplesTensor mb3 false none draws0).getD 1 []).head? =
        some ((wc draws0 0 0).1 • (⟨1, 2, 3⟩ : Vec3) +
          (wc draws0 0 0).2.1 • (⟨2, 2, 3⟩ : Vec3) +
          (wc draws0 0 0).2.2 • (⟨1, 3, 3⟩ : Vec3)) := rfl
    rw [e3]
    have hw : wc draws0 0 0 = (1, 0, 0) := by
      show rand_barycentric_coords_q 0 0 = (1, 0, 0)
      rw [rand_barycentric_coords_q]
      rw [qsqrt_zero]
      norm_num
    rw [hw]
    simp only [Vec3.smul_def, Vec3.add_def]
    norm_num
  · intro hcontra
    rw [Vec3.zero_def, Vec3.mk.injEq] at hcontra
    norm_num at hcontra

/-- Witness for C3's amended theorem: at the concrete `[empty, valid]`
batch with barycentric interpolation, the empty mesh (batch row 0) has
the all-zero position row and the all-`(-1)` feature row. -/
theorem claim3_witness :
    (samplesTensor mb3 false none draws0).get? 0 =
      some (List.replicate hardcodedNumSamples 0) ∧
    (featuresTensor mb3 .barycentric none draws0).get? 0 =
      some (List.replicate hardcodedNumSamples (List.replicate mb3.featDim (-1))) := by
  exact ⟨claim3_amended.2.1 mb3 false none draws0 0 (by decide) (by decide),
    claim3_amended.2.2.2.1 mb3 none draws0 0 (by decide) (by decide)⟩

/-! ### Claim C9

Concrete two-mesh batch (packed form): two right triangles with legs
`(6, 8)` and `(12, 16)`.  All cotangents, curvature-normal components
and their norms are exactly representable, so `qsqrt` coincides with the
real square root everywhere it is applied. -/

def c9verts : List Vec3 :=
  [⟨0, 0, 0⟩, ⟨6, 0, 0⟩, ⟨0, 8, 0⟩, ⟨0, 0, 0⟩, ⟨12, 0, 0⟩, ⟨0, 16, 0⟩]

def c9faces : List (Nat × Nat × Nat) := [(0, 1, 2), (3, 4, 5)]

def c9normals : List Vec3 :=
  [⟨1, 0, 0⟩, ⟨1, 0, 0⟩, ⟨1, 0, 0⟩, ⟨1, 0, 0⟩, ⟨1, 0, 0⟩, ⟨1, 0, 0⟩]

/-- The cotangent edge-weight table of the concrete batch: the two
hypotenuse-free right triangles give weights `2/3` (leg-leg edge
opposite the `4/3`-cotangent angle is the hypotenuse... edges `(0,1)`
and `(3,4)` get `(1/2)·(4/3)`, edges `(0,2)` and `(3,5)` get
`(1/2)·(3/4)`, the hypotenuses get `0`). -/
def c9W : Nat → Nat → ℚ
  | 0, 1 => 2/3
  | 1, 0 => 2/3
  | 0, 2 => 3/8
  | 2, 0 => 3/8
  | 3, 4 => 2/3
  | 4, 3 => 2/3
  | 3, 5 => 3/8
  | 5, 3 => 3/8
  | _, _ => 0

theorem c9_cotWeight_eval :
    ∀ i < 6, ∀ j < 6, cotWeight c9verts c9faces i j = c9W i j := by
  have h48 : qsqrt 2304 = 48 := by
    have h := qsqrt_of_sq 48
    norm_num at h
    exact h
  have h192 : qsqrt 36864 = 192 := by
    have h := qsqrt_of_sq 192
    norm_num at h
    exact h
  have ca1 : cotAt ⟨0, 0, 0⟩ ⟨6, 0, 0⟩ ⟨0, 8, 0⟩ = 4/3 := by
    norm_num [cotAt, dot, cross, qnorm, Vec3.sub_def, h48]
  have ca2 : cotAt ⟨6, 0, 0⟩ ⟨0, 8, 0⟩ ⟨0, 0, 0⟩ = 0 := by
    norm_num [cotAt, dot, cross, qnorm, Vec3.sub_def, h48]
  have ca3 : cotAt ⟨0, 0, 0⟩ ⟨0, 8, 0⟩ ⟨6, 0, 0⟩ = 3/4 := by
    norm_num [cotAt, dot, cross, qnorm, Vec3.sub_def, h48]
  have cb1 : cotAt ⟨0, 0, 0⟩ ⟨12, 0, 0⟩ ⟨0, 16, 0⟩ = 4/3 := by
    norm_num [cotAt, dot, cross, qnorm, Vec3.sub_def, h192]
  have cb2 : cotAt ⟨12, 0, 0⟩ ⟨0, 16, 0⟩ ⟨0, 0, 0⟩ = 0 := by
    norm_num [cotAt, dot, cross, qnorm, Vec3.sub_def, h192]
  have cb3 : cotAt ⟨0, 0, 0⟩ ⟨0, 16, 0⟩ ⟨12, 0, 0⟩ = 3/4 := by
    norm_num [cotAt, dot, cross, qnorm, Vec3.sub_def, h192]
  have hv0 : c9verts[0]? = some ⟨0, 0, 0⟩ := rfl
  have hv1 : c9verts[1]? = some ⟨6, 0, 0⟩ := rfl
  have hv2 : c9verts[2]? = some ⟨0, 8, 0⟩ := rfl
  have hv3 : c9verts[3]? = some ⟨0, 0, 0⟩ := rfl
  have hv4 : c9verts[4]? = some ⟨12, 0, 0⟩ := rfl
  have hv5 : c9verts[5]? = some ⟨0, 16, 0⟩ := rfl
  intro i hi j hj
  interval_cases i <;> interval_cases j <;>
    norm_num [cotWeight, c9faces, c9W, hv0, hv1, hv2, hv3, hv4, hv5,
      ca1, ca2, ca3, cb1, cb2, cb3]

/-- The Laplacian table: off-diagonal entries from `c9W`, diagonal
entries the negated row sums. -/
def c9L : Nat → Nat → ℚ
  | 0, 0 => -(25/24)
  | 1, 1 => -(2/3)
  | 2, 2 => -(3/8)
  | 3, 3 => -(25/24)
  | 4, 4 => -(2/3)
  | 5, 5 => -(3/8)
  | i, j => c9W i j

theorem c9_L_eval :
    ∀ i < 6, ∀ j < 6, cot_laplacian c9verts c9faces i j = c9L i j := by
  have hlen : c9verts.length = 6 := rfl
  intro i hi j hj
  interval_cases i <;> interval_cases j <;>
    norm_num [cot_laplacian, hlen, range_six, c9_cotWeight_eval, c9W, c9L]

theorem c9_mcn_eval :
    mean_curvature_normals c9verts c9faces =
      [⟨4, 3, 0⟩, ⟨-4, 0, 0⟩, ⟨0, -3, 0⟩, ⟨8, 6, 0⟩, ⟨-8, 0, 0⟩, ⟨0, -6, 0⟩] := by
  have hlen : c9verts.length = 6 := rfl
  have hv0 : c9verts[0]? = some ⟨0, 0, 0⟩ := rfl
  have hv1 : c9verts[1]? = some ⟨6, 0, 0⟩ := rfl
  have hv2 : c9verts[2]? = some ⟨0, 8, 0⟩ := rfl
  have hv3 : c9verts[3]? = some ⟨0, 0, 0⟩ := rfl
  have hv4 : c9verts[4]? = some ⟨12, 0, 0⟩ := rfl
  have hv5 : c9verts[5]? = some ⟨0, 16, 0⟩ := rfl
  norm_num [mean_curvature_normals, hlen, tabulate_six, range_six, vecSum,
    c9_L_eval, c9L, c9W, hv0, hv1, hv2, hv3, hv4, hv5, Vec3.smul_def,
    Vec3.add_def, Vec3.zero_def, Vec3.x_zero, Vec3.y_zero, Vec3.z_zero,
    Vec3.mk.injEq]

theorem c9_smc_eval :
    signedCurvature c9verts c9faces c9normals = [20, -16, 0, 80, -64, 0] := by
  have h5 : qsqrt 25 = 5 := by
    have h := qsqrt_of_sq 5
    norm_num at h
    exact h
  have h4 : qsqrt 16 = 4 := by
    have h := qsqrt_of_sq 4
    norm_num at h
    exact h
  have h3 : qsqrt 9 = 3 := by
    have h := qsqrt_of_sq 3
    norm_num at h
    exact h
  have h10 : qsqrt 100 = 10 := by
    have h := qsqrt_of_sq 10
    norm_num at h
    exact h
  have h8 : qsqrt 64 = 8 := by
    have h := qsqrt_of_sq 8
    norm_num at h
    exact h
  have h6 : qsqrt 36 = 6 := by
    have h := qsqrt_of_sq 6
    norm_num at h
    exact h
  norm_num [signedCurvature, c9_mcn_eval, c9normals, dot, qnorm,
    h5, h4, h3, h10, h8, h6]

theorem c9_mean_eval : listMean [(20 : ℚ), -16, 0, 80, -64, 0] = 10/3 := by
  norm_num [listMean]

theorem c9_var_pos : 0 < listVar [(20 : ℚ), -16, 0, 80, -64, 0] := by
  norm_num [listVar, listMean]

theorem c9_std_ne : listStd [(20 : ℚ), -16, 0, 80, -64, 0] ≠ 0 :=
  ne_of_gt (qsqrt_pos _ c9_var_pos)

theorem listMean_three (a b c : ℚ) : listMean [a, b, c] = (a + b + c) / 3 := by
  rw [listMean]
  norm_num
  ring

/-- Counterexample to claim C9: on a packed two-mesh batch (vertices
0-2 are mesh 1, vertices 3-5 are mesh 2), the signed standardized
curvature returned by `compute_mean_curvature` does NOT have zero mean
over the vertices of the first mesh — the z-score uses one global mean
and standard deviation over the whole packed batch, not per mesh. -/
theorem claim9_counterexample :
    listMean ((compute_mean_curvature c9verts c9faces c9normals true).take 3) ≠ 0 := by
  rw [compute_mean_curvature_signed]
  rw [c9_smc_eval, c9_mean_eval]
  have hs := c9_std_ne
  generalize hg : listStd [(20 : ℚ), -16, 0, 80, -64, 0] = s
  rw [hg] at hs
  simp only [List.map_cons, List.map_nil, take_three]
  rw [listMean_three]
  rw [div_add_div_same, div_add_div_same]
  rw [div_ne_zero_iff, div_ne_zero_iff]
  exact ⟨⟨by norm_num, hs⟩, by norm_num⟩

theorem sum_map_center (xs : List ℚ) (μ σ : ℚ) :
    (xs.map (fun a => (a - μ) / σ)).sum = (xs.sum - xs.length * μ) / σ := by
  induction xs with
  | nil => simp
  | cons a l ih =>
    simp only [List.map_cons, List.sum_cons, ih, List.length_cons]
    push_cast
    ring

theorem sum_map_center_sq (xs : List ℚ) (μ σ : ℚ) :
    (xs.map (fun a => ((a - μ) / σ) ^ 2)).sum =
      (xs.map (fun a => (a - μ) ^ 2)).sum / σ ^ 2 := by
  induction xs with
  | nil => simp
  | cons a l ih =>
    simp only [List.map_cons, List.sum_cons, ih]
    rw [div_pow, div_add_div_same]

/-- Amended claim C9: the z-score standardization of the signed
curvature is over the whole packed vertex axis (one global mean and
sample standard deviation for the batch), not per mesh.  Whenever the
standard deviation is non-zero, the RETURNED values have zero mean over
the whole batch, and — when the square root is exact, i.e.
`std * std = variance` — unit sample variance over the whole batch.
Per-mesh means are in general non-zero (see the counterexample). -/
theorem claim9_amended (verts : List Vec3) (faces : List (Nat × Nat × Nat))
    (normals : List Vec3)
    (hstd : listStd (signedCurvature verts faces normals) ≠ 0) :
    listMean (compute_mean_curvature verts faces normals true) = 0 ∧
    (listStd (signedCurvature verts faces normals) *
        listStd (signedCurvature verts faces normals) =
          listVar (signedCurvature verts faces normals) →
      listVar (compute_mean_curvature verts faces normals true) = 1) := by
  set xs := signedCurvature verts faces normals with hxs
  have hne : xs ≠ [] := by
    intro h0
    apply hstd
    rw [h0]
    have hv : listVar ([] : List ℚ) = 0 := by norm_num [listVar]
    rw [listStd, hv, qsqrt_zero]
  have hn : (xs.length : ℚ) ≠ 0 := by
    have h1 : xs.length ≠ 0 := fun h0 => hne (List.eq_nil_of_length_eq_zero h0)
    exact_mod_cast h1
  have hmean : listMean (compute_mean_curvature verts faces normals true) = 0 := by
    rw [compute_mean_curvature_signed, ← hxs, listMean, List.length_map,
      sum_map_center]
    have hz : xs.sum - (xs.length : ℚ) * listMean xs = 0 := by
      rw [listMean]
      field_simp
    rw [hz, zero_div, zero_div]
  refine ⟨hmean, ?_⟩
  intro hexact
  have hvar : listVar xs ≠ 0 := by
    rw [← hexact]
    exact mul_ne_zero hstd hstd
  rw [listVar, hmean]
  simp only [sub_zero]
  rw [compute_mean_curvature_signed, ← hxs, List.map_map, List.length_map]
  have hcomp : ((fun a => a ^ 2) ∘ fun a => (a - listMean xs) / listStd xs)
      = fun a => ((a - listMean xs) / listStd xs) ^ 2 := rfl
  rw [hcomp, sum_map_center_sq]
  rw [div_div, mul_comm ((listStd xs) ^ 2), ← div_div]
  have hvar' : (xs.map (fun a => (a - listMean xs) ^ 2)).sum /
      ((xs.length : ℚ) - 1) = listVar xs := rfl
  rw [hvar', sq, hexact, div_self hvar]

/-- Witness for C9's amended theorem at the concrete two-mesh batch:
the standard deviation is non-zero there, and the batch-wide mean of
the returned curvature is zero. -/
theorem claim9_witness :
    listStd (signedCurvature c9verts c9faces c9normals) ≠ 0 ∧
    listMean (compute_mean_curvature c9verts c9faces c9normals true) = 0 := by
  have hs : listStd (signedCurvature c9verts c9faces c9normals) ≠ 0 := by
    rw [c9_smc_eval]
    exact c9_std_ne
  exact ⟨hs, (claim9_amended c9verts c9faces c9normals hs).1⟩

end P3D
